import Mathlib

/-!
Shallow embedding of the arbitrage engine of `adkbot/arbiroot-navigator`:
the opportunity detector (`src/src/lib/arbitrage.ts`, detector section,
identical in the `src/unnamed/part_008` variant), the liquidity probe of the
exchange manager (`src/src/lib/exchange.ts`), and the execution orchestrator
with its rollback coordinator (`src/unnamed/part_009`).

Numbers are embedded as `ℚ` (the JS sources use IEEE doubles; every claim
settled here is about the algebraic structure of the computations, and each
concrete evaluation uses values whose double arithmetic is exact or whose
comparison outcomes agree with the rational ones). JS `Set`/`Map`/object
iteration order is insertion order and is modelled by order-preserving lists.
`Date.now()` and `Math.random()` are impure inputs and become explicit
parameters (`now`, `rand`). External venue I/O (the CCXT calls of
`ExchangeManager`) is an environment of oracles, as in the spec's
ExchangeGateway contract.
-/

namespace ArbiRoot

/-- `PriceData` of `src/src/lib/types.ts`: one venue's quote for one symbol.
`bid`/`ask`/`volume` are optional in the source interface (`none` = absent). -/
structure PriceData where
  symbol : String
  price : ℚ
  exchange : String
  timestamp : ℕ
  bid : Option ℚ := none
  ask : Option ℚ := none
  volume : Option ℚ := none
deriving DecidableEq, Repr

/-- `ArbitrageParams` of `types.ts` (the optional `maxSlippage`,
`minLiquidity`, `maxExposure` fields are never read by the detector and are
omitted). `maxPathLength` is used only in list-length comparisons, hence `ℕ`. -/
structure ArbitrageParams where
  minProfitPercentage : ℚ
  maxPathLength : ℕ
  includeExchanges : List String
deriving DecidableEq, Repr

/-- `ArbitrageType` of `types.ts`. -/
inductive ArbitrageType where
  | triangular
  | simple
deriving DecidableEq, Repr

/-- `ArbitrageOpportunity` of `types.ts` (`estimatedFees`, `riskLevel` are
optional and never set by the detector; `riskLevel` is omitted,
`minimumRequired` is kept because the executor reads it). -/
structure ArbitrageOpportunity where
  id : String
  type : ArbitrageType
  profit : ℚ
  profitPercentage : ℚ
  path : List String
  details : String
  timestamp : ℕ
  exchanges : List String
  estimatedFees : Option ℚ := none
  minimumRequired : Option ℚ := none
deriving DecidableEq, Repr

/-! ### JS collection helpers -/

/-- JS `Set.add`: keep insertion order, ignore an element already present. -/
def insertUnique (l : List String) (a : String) : List String :=
  if a ∈ l then l else l ++ [a]

/-- JS `Map.set`: overwrite the value of an existing key in place, append a
new key at the end. -/
def setAssoc (m : List (String × ℚ)) (k : String) (v : ℚ) : List (String × ℚ) :=
  match m with
  | [] => [(k, v)]
  | (k0, v0) :: rest => if k0 = k then (k0, v) :: rest else (k0, v0) :: setAssoc rest k v

/-- JS `Map.get` (the detector only calls it on keys it has checked are
present, so the default is never observable). -/
def lookupPrice (m : List (String × ℚ)) (k : String) : ℚ :=
  match m with
  | [] => 0
  | (k0, v0) :: rest => if k0 = k then v0 else lookupPrice rest k

/-- Append `p` to the group of key `k`, creating the group at the end if the
key is new — the `Record<string, PriceData[]>` push pattern of the source;
`Object.entries` later iterates in this first-occurrence key order. -/
def pushGroup (gs : List (String × List PriceData)) (k : String) (p : PriceData) :
    List (String × List PriceData) :=
  match gs with
  | [] => [(k, [p])]
  | (k0, ps) :: rest =>
    if k0 = k then (k0, ps ++ [p]) :: rest else (k0, ps) :: pushGroup rest k p

/-- Group a price list by a string key, preserving both key first-occurrence
order and per-group insertion order. -/
def groupByKey (key : PriceData → String) (prices : List PriceData) :
    List (String × List PriceData) :=
  prices.foldl (fun gs p => pushGroup gs (key p) p) []

/-- Split a character list on a separator, `String.split` style: `"A/B"`
becomes `["A", "B"]`, a string without the separator stays whole. (A
structural re-implementation of `String.splitOn "/"`, which kernel
reduction cannot unfold.) -/
def splitCharsOn (c : Char) : List Char → List (List Char)
  | [] => [[]]
  | x :: xs =>
    let rest := splitCharsOn c xs
    if x = c then [] :: rest
    else
      match rest with
      | [] => [[x]]
      | h :: t => (x :: h) :: t

/-- `const [base, quote] = price.symbol.split('/')` — the base asset. -/
def symbolBase (s : String) : String :=
  String.mk ((splitCharsOn '/' s.data).headD [])

/-- The quote asset of the same destructuring. When the symbol has no `/`,
JS yields `undefined`, which every later use (template-literal pair strings,
object keys) coerces to the string `"undefined"`; we use that string. -/
def symbolQuote (s : String) : String :=
  ((splitCharsOn '/' s.data).map String.mk).getD 1 "undefined"

/-- Left-pad with zeros to `d` characters. -/
def padZeros (d : ℕ) (s : String) : String :=
  String.mk (List.replicate (d - s.length) '0') ++ s

/-- Decimal rendering with `d` fraction digits, standing in for JS
`Number.toFixed` (rounding to nearest on the rational value; only used inside
the human-readable `details` strings, which no claim inspects). -/
def toFixedQ (d : ℕ) (q : ℚ) : String :=
  let n : ℤ := round (q * (10 : ℚ) ^ d)
  let a : ℕ := n.natAbs
  let ip := a / 10 ^ d
  let fp := a % 10 ^ d
  (if n < 0 then "-" else "") ++ toString ip ++
    (if d = 0 then "" else "." ++ padZeros d (toString fp))

/-! ### Triangular detection (`findArbitragePaths`, arbitrage.ts lines 775-852) -/

/-- One hop of `findArbitragePaths` (lines 806-824): try the direct pair
`current/next` — dividing the held value by its price — then the inverse pair
`next/current` — multiplying by its price; `none` when neither symbol exists
(`foundPath` stays false). -/
def hopConvert (symbols : List String) (priceMap : List (String × ℚ))
    (currentAsset nextAsset : String) (currentValue : ℚ) : Option ℚ :=
  let directPair := currentAsset ++ "/" ++ nextAsset
  let inversePair := nextAsset ++ "/" ++ currentAsset
  if directPair ∈ symbols then some (currentValue / lookupPrice priceMap directPair)
  else if inversePair ∈ symbols then some (currentValue * lookupPrice priceMap inversePair)
  else none

/-- The triangular opportunity pushed at lines 786-800. -/
def mkTriOpp (exchange : String) (path : List String) (currentValue : ℚ) (now : ℕ) :
    ArbitrageOpportunity :=
  let profitPercentage := (currentValue - 1) * 100
  { id := "tri-" ++ exchange ++ "-" ++ String.intercalate "-" path ++ "-" ++ toString now
    type := ArbitrageType.triangular
    profit := currentValue - 1
    profitPercentage := profitPercentage
    path := path
    details := String.intercalate " → " path ++ " (" ++ toFixedQ 2 profitPercentage ++ "%)"
    timestamp := now
    exchanges := [exchange] }

/-- `findArbitragePaths` (arbitrage.ts lines 775-852; byte-identical logic in
part_008 lines 95-161). The source recursion terminates because `path` grows
by one per call and the `path.length > maxDepth` guard cuts it; the `fuel`
argument makes that structural, and every caller passes `maxDepth + 1`, which
the guard makes sufficient. Opportunities pushed into the shared array become
the returned list, in emission order. -/
def findArbitragePaths (fuel : ℕ) (currentAsset startAsset : String)
    (assets symbols : List String) (priceMap : List (String × ℚ))
    (currentValue : ℚ) (path : List String) (exchange : String)
    (maxDepth : ℕ) (minProfitPercentage : ℚ) (now : ℕ) : List ArbitrageOpportunity :=
  if maxDepth < path.length then []
  else if currentAsset = startAsset ∧ 2 < path.length then
    if minProfitPercentage ≤ (currentValue - 1) * 100 then
      [mkTriOpp exchange path currentValue now]
    else []
  else
    match fuel with
    | 0 => []
    | fuel' + 1 =>
      assets.flatMap fun nextAsset =>
        if nextAsset = currentAsset then []
        else
          match hopConvert symbols priceMap currentAsset nextAsset currentValue with
          | none => []
          | some newValue =>
            if nextAsset ∈ path then []
            else
              findArbitragePaths fuel' nextAsset startAsset assets symbols priceMap
                (newValue * 0.999) (path ++ [nextAsset]) exchange maxDepth
                minProfitPercentage now

/-- The per-exchange preprocessing of lines 738-753: price map, symbol set and
asset set, in insertion order. -/
def buildPriceMap (exchangePrices : List PriceData) : List (String × ℚ) :=
  exchangePrices.foldl (fun m p => setAssoc m p.symbol p.price) []

/-- Symbol `Set` of a venue's prices. -/
def collectSymbols (exchangePrices : List PriceData) : List String :=
  exchangePrices.foldl (fun s p => insertUnique s p.symbol) []

/-- Asset `Set` of a venue's prices: base then quote of each symbol. -/
def collectAssets (exchangePrices : List PriceData) : List String :=
  exchangePrices.foldl
    (fun s p => insertUnique (insertUnique s (symbolBase p.symbol)) (symbolQuote p.symbol)) []

/-- The triangular sweep of `findTriangularArbitrageOpportunities`
(lines 722-768): group the included prices by exchange, then start a search
from every asset of every venue. -/
def triangularOpportunities (prices : List PriceData) (params : ArbitrageParams)
    (now : ℕ) : List ArbitrageOpportunity :=
  let included := prices.filter fun p => p.exchange ∈ params.includeExchanges
  (groupByKey (fun p => p.exchange) included).flatMap fun g =>
    let priceMap := buildPriceMap g.2
    let symbols := collectSymbols g.2
    let assets := collectAssets g.2
    assets.flatMap fun startAsset =>
      findArbitragePaths (params.maxPathLength + 1) startAsset startAsset assets symbols
        priceMap 1 [startAsset] g.1 params.maxPathLength params.minProfitPercentage now

/-! ### Simple detection (`findSimpleArbitrageOpportunities`, lines 855-905) -/

/-- `reduce((min, price) => price.price < min.price ? price : min, ps[0])`. -/
def reduceMinPrice (l : List PriceData) (init : PriceData) : PriceData :=
  l.foldl (fun m p => if p.price < m.price then p else m) init

/-- `reduce((max, price) => price.price > max.price ? price : max, ps[0])`. -/
def reduceMaxPrice (l : List PriceData) (init : PriceData) : PriceData :=
  l.foldl (fun m p => if m.price < p.price then p else m) init

/-- The simple opportunity pushed at lines 888-900. -/
def mkSimpleOpp (now : ℕ) (symbol : String) (lowestAsk highestBid : PriceData) :
    ArbitrageOpportunity :=
  let buyPrice := lowestAsk.price
  let sellPrice := highestBid.price
  let profitPercentage := (sellPrice / buyPrice * 0.998 - 1) * 100
  { id := "simple-" ++ symbol ++ "-" ++ lowestAsk.exchange ++ "-" ++ highestBid.exchange
      ++ "-" ++ toString now
    type := ArbitrageType.simple
    profit := (sellPrice - buyPrice) * 0.998
    profitPercentage := profitPercentage
    path := [symbol]
    details := "Buy " ++ symbol ++ " on " ++ lowestAsk.exchange ++ " at "
      ++ toFixedQ 6 buyPrice ++ ", sell on " ++ highestBid.exchange ++ " at "
      ++ toFixedQ 6 sellPrice ++ " (" ++ toFixedQ 2 profitPercentage ++ "%)"
    timestamp := now
    exchanges := [lowestAsk.exchange, highestBid.exchange] }

/-- Body of the per-symbol loop of lines 875-902: skip groups of fewer than
two quotes, pick the price-field minimum and maximum (first occurrence wins a
tie), skip when both sit on one venue, emit when the fee-adjusted percentage
reaches the threshold. -/
def simpleOppOfGroup (params : ArbitrageParams) (now : ℕ) (symbol : String)
    (group : List PriceData) : List ArbitrageOpportunity :=
  match group with
  | [] => []
  | p0 :: _ =>
    if group.length < 2 then []
    else
      let lowestAsk := reduceMinPrice group p0
      let highestBid := reduceMaxPrice group p0
      if lowestAsk.exchange = highestBid.exchange then []
      else
        if params.minProfitPercentage ≤
            (highestBid.price / lowestAsk.price * 0.998 - 1) * 100 then
          [mkSimpleOpp now symbol lowestAsk highestBid]
        else []

/-- `findSimpleArbitrageOpportunities` (lines 855-905): group the included
prices by symbol and emit at most one opportunity per group. -/
def findSimpleArbitrageOpportunities (prices : List PriceData)
    (params : ArbitrageParams) (now : ℕ) : List ArbitrageOpportunity :=
  let included := prices.filter fun p => p.exchange ∈ params.includeExchanges
  (groupByKey (fun p => p.symbol) included).flatMap fun g =>
    simpleOppOfGroup params now g.1 g.2

/-! ### Ranking (lines 770-771) -/

/-- Order of the final `sort((a, b) => b.profitPercentage - a.profitPercentage)`:
`a` may precede `b` when its percentage is at least `b`'s. -/
def oppBefore (a b : ArbitrageOpportunity) : Prop :=
  b.profitPercentage ≤ a.profitPercentage

instance : DecidableRel oppBefore := fun a b =>
  inferInstanceAs (Decidable (b.profitPercentage ≤ a.profitPercentage))

instance : IsTotal ArbitrageOpportunity oppBefore :=
  ⟨fun a b => le_total b.profitPercentage a.profitPercentage⟩

instance : IsTrans ArbitrageOpportunity oppBefore :=
  ⟨fun _ _ _ h1 h2 => le_trans h2 h1⟩

/-- The detector's output before the final sort: the triangular emissions
followed by the simple emissions pushed into the same array. -/
def detectorUnsorted (prices : List PriceData) (params : ArbitrageParams)
    (now : ℕ) : List ArbitrageOpportunity :=
  triangularOpportunities prices params now
    ++ findSimpleArbitrageOpportunities prices params now

/-- `findTriangularArbitrageOpportunities` (arbitrage.ts lines 715-772): both
sweeps, then the stable sort by descending profit percentage (ES2019 `sort`
is stable; a stable insertion sort realises the same order). -/
def findTriangularArbitrageOpportunities (prices : List PriceData)
    (params : ArbitrageParams) (now : ℕ) : List ArbitrageOpportunity :=
  List.insertionSort oppBefore (detectorUnsorted prices params now)

/-- Boolean form of spec property P1 for a triangular path: closed cycle,
node count between 3 and `maxPathLength + 1`, no repeated intermediate
asset (the nodes strictly between the first and the last). -/
def triPathOk (maxPathLength : ℕ) (path : List String) : Bool :=
  (path.head? == path.getLast?) && decide (3 ≤ path.length)
    && decide (path.length ≤ maxPathLength + 1) && decide path.tail.dropLast.Nodup

/-! ## Execution orchestrator (`src/unnamed/part_009`, class ArbitrageExecutor)

The venue side of every call the executor makes through its
`ExchangeManager` is a deterministic oracle environment (the spec's
ExchangeGateway). `calculateRiskMetrics` (lines 122-160, cited by no claim)
and the polling loop of `waitForOrderCompletion` are abstracted as single
oracle calls; everything else is embedded statement by statement. -/

/-- Order side strings of the source. -/
inductive Side where
  | buy
  | sell
deriving DecidableEq, Repr

/-- `trade.side === 'buy' ? 'sell' : 'buy'` of `rollbackTrades`. -/
def flipSide : Side → Side
  | Side.buy => Side.sell
  | Side.sell => Side.buy

/-- `OrderType` of `types.ts`. -/
inductive OrderType where
  | limit
  | market
deriving DecidableEq, Repr

/-- Session states of `types.ts`. -/
inductive SessionStatus where
  | pending
  | executing
  | completed
  | failed
deriving DecidableEq, Repr

/-- Risk classes of `types.ts`. -/
inductive RiskLevel where
  | low
  | medium
  | high
deriving DecidableEq, Repr

/-- `TradeResult` as the executor uses it: the declared interface of
`types.ts` (its unused optional `fee` object omitted) together with the
`side`/`exchange`/`symbol` fields that `rollbackTrades` and
`calculateCurrentProfit` read off the runtime order object. -/
structure TradeResult where
  id : String
  status : String
  filled : ℚ
  remaining : ℚ
  price : ℚ
  cost : ℚ
  timestamp : ℕ
  side : Side
  exchange : String
  symbol : String
deriving DecidableEq, Repr

/-- `ArbitrageSession` of `types.ts` (`errors` is created as `[]` by
`createSession`, so it is a plain list here). -/
structure ArbitrageSession where
  id : String
  startTime : ℕ
  trades : List TradeResult
  status : SessionStatus
  profitTarget : ℚ
  currentProfit : ℚ
  errors : List String
deriving DecidableEq, Repr

/-- `RiskMetrics` of `types.ts`. -/
structure RiskMetrics where
  volatility : ℚ
  slippageEstimate : ℚ
  liquidityScore : ℚ
  executionRisk : RiskLevel
  maxLoss : ℚ
deriving DecidableEq, Repr

/-- `LiquidityInfo` of `types.ts`. The interface declares `depth` and
`isLiquid` as required, but the only producer (`checkLiquidity` of
`exchange.ts`) returns an object literal carrying neither, so both are
embedded as options whose `none` is the resulting JS `undefined`. -/
structure LiquidityInfo where
  symbol : String
  exchange : String
  bidVolume : ℚ
  askVolume : ℚ
  spread : ℚ
  depth : Option ℚ := none
  isLiquid : Option Bool := none
deriving DecidableEq, Repr

/-- An order book as `fetchOrderBook` delivers it: price/volume rows. -/
structure OrderBook where
  bids : List (ℚ × ℚ)
  asks : List (ℚ × ℚ)
deriving DecidableEq, Repr

/-- One `createOrder` invocation: the arguments the executor hands to the
gateway (a `none` price is a market order). -/
structure OrderReq where
  exchange : String
  symbol : String
  type : OrderType
  side : Side
  amount : ℚ
  price : Option ℚ
deriving DecidableEq, Repr

/-- The ExchangeGateway oracle: one deterministic answer per call signature.
`riskMetrics` abstracts `calculateRiskMetrics`, `waitForOrder` abstracts the
`waitForOrderCompletion` poll loop (`ok` = reached `closed`, `error` =
cancellation/expiry/timeout). -/
structure ExchangeEnv where
  fetchBalance : String → Except String ℚ
  checkLiquidity : String → String → ℚ → Except String LiquidityInfo
  riskMetrics : ArbitrageOpportunity → Except String RiskMetrics
  fetchOrderBook : String → String → Except String OrderBook
  createOrder : String → String → OrderType → Side → ℚ → Option ℚ → Except String TradeResult
  waitForOrder : String → String → String → Except String Unit

/-- `checkLiquidity` of `src/src/lib/exchange.ts` lines 144-179, on the order
book its own `fetchOrderBook(symbol, 10)` call produced: sums the bid and ask
volumes, takes the top-of-book spread (`bestBid > 0 ? … : 0`), and returns the
object literal of lines 167-173 — which ignores the `amount` argument
entirely and sets neither `depth` nor `isLiquid`. -/
def checkLiquidity (exchange symbol : String) (_amount : ℚ) (orderBook : OrderBook) :
    LiquidityInfo :=
  let bidVolume := orderBook.bids.foldl (fun total pv => total + pv.2) 0
  let askVolume := orderBook.asks.foldl (fun total pv => total + pv.2) 0
  let bestBid := (orderBook.bids.head?.map Prod.fst).getD 0
  let bestAsk := (orderBook.asks.head?.map Prod.fst).getD 0
  let spread := if 0 < bestBid then (bestAsk - bestBid) / bestBid else 0
  { exchange := exchange, symbol := symbol, bidVolume := bidVolume,
    askVolume := askVolume, spread := spread }

/-- `MIN_LIQUIDITY_RATIO` of part_009 line 18. -/
def MIN_LIQUIDITY_RATIO : ℚ := 3

/-- `MAX_SLIPPAGE` of part_009 line 17. -/
def MAX_SLIPPAGE : ℚ := 0.005

/-- `opportunity.exchanges[index]`: past the end JS yields `undefined`, which
every consumer (template literal, object property key) coerces to the string
`"undefined"`. -/
def exchangeIdAt (exchanges : List String) (index : ℕ) : String :=
  exchanges.getD index "undefined"

/-- Source placeholder (part_009 lines 262-265): always `true`. -/
def hasEnoughBalance (_balance : ℚ) (_opportunity : ArbitrageOpportunity) : Bool :=
  true

/-- Loop body of `validateBalances` (lines 90-99). -/
def validateBalancesGo (env : ExchangeEnv) (opportunity : ArbitrageOpportunity) :
    List String → Except String Unit
  | [] => Except.ok ()
  | exchangeId :: rest =>
    match env.fetchBalance exchangeId with
    | Except.error e => Except.error e
    | Except.ok balance =>
      if hasEnoughBalance balance opportunity then
        validateBalancesGo env opportunity rest
      else Except.error ("Saldo insuficiente na exchange " ++ exchangeId)

/-- `validateBalances` (part_009 lines 90-99). -/
def validateBalances (env : ExchangeEnv) (opportunity : ArbitrageOpportunity) :
    Except String Unit :=
  validateBalancesGo env opportunity opportunity.exchanges

/-- Loop body of `validateLiquidity` (lines 101-120): JS
`if (!liquidity.isLiquid) throw …` — `undefined` and `false` are both falsy,
so only `isLiquid === true` lets a path entry pass. The `liquidityChecks`
accumulator of the source is dropped: it is never read. -/
def validateLiquidityGo (env : ExchangeEnv) (opportunity : ArbitrageOpportunity) :
    ℕ → List String → Except String Unit
  | _, [] => Except.ok ()
  | index, symbol :: rest =>
    let exchangeId := exchangeIdAt opportunity.exchanges index
    let requiredAmount := opportunity.minimumRequired.getD 0
    match env.checkLiquidity exchangeId symbol (requiredAmount * MIN_LIQUIDITY_RATIO) with
    | Except.error e => Except.error e
    | Except.ok liquidity =>
      if liquidity.isLiquid = some true then
        validateLiquidityGo env opportunity (index + 1) rest
      else Except.error ("Liquidez insuficiente para " ++ symbol ++ " em " ++ exchangeId)

/-- `validateLiquidity` (part_009 lines 101-120). -/
def validateLiquidity (env : ExchangeEnv) (opportunity : ArbitrageOpportunity) :
    Except String Unit :=
  validateLiquidityGo env opportunity 0 opportunity.path

/-- Source placeholder (lines 267-270): always `'buy'`. -/
def determineTradeSide (_symbol : String) (_session : ArbitrageSession) : Side :=
  Side.buy

/-- Source placeholder (lines 272-275): always `0`. -/
def calculateTradeAmount (_symbol : String) (_session : ArbitrageSession) : ℚ :=
  0

/-- `calculateOptimalPrice` (lines 277-287): first order-book row of the
relevant side; an empty side makes `orders[0][0]` raise a TypeError. -/
def calculateOptimalPrice (env : ExchangeEnv) (symbol exchangeId : String)
    (side : Side) : Except String ℚ :=
  match env.fetchOrderBook exchangeId symbol with
  | Except.error e => Except.error e
  | Except.ok orderbook =>
    let orders := match side with
      | Side.buy => orderbook.asks
      | Side.sell => orderbook.bids
    match orders.head? with
    | none => Except.error "TypeError: orders[0] is undefined"
    | some top => Except.ok top.1

/-- `executeTrade` (lines 162-190): limit order at the computed price, then
wait for completion; the second component records the `createOrder` calls
made (the one request, once the price computation has succeeded). -/
def executeTrade (env : ExchangeEnv) (symbol exchangeId : String)
    (session : ArbitrageSession) : Except String TradeResult × List OrderReq :=
  let side := determineTradeSide symbol session
  let amount := calculateTradeAmount symbol session
  match calculateOptimalPrice env symbol exchangeId side with
  | Except.error e => (Except.error e, [])
  | Except.ok price =>
    let req : OrderReq :=
      { exchange := exchangeId, symbol := symbol, type := OrderType.limit,
        side := side, amount := amount, price := some price }
    match env.createOrder exchangeId symbol OrderType.limit side amount (some price) with
    | Except.error e => (Except.error e, [req])
    | Except.ok result =>
      match env.waitForOrder result.id symbol exchangeId with
      | Except.error e => (Except.error e, [req])
      | Except.ok _ => (Except.ok result, [req])

/-- `calculateCurrentProfit` (lines 216-221): signed sum of the executed
trades' costs. -/
def calculateCurrentProfit (session : ArbitrageSession) : ℚ :=
  session.trades.foldl
    (fun profit trade =>
      profit + (match trade.side with
        | Side.buy => -trade.cost
        | Side.sell => trade.cost)) 0

/-- `isStillProfitable` (lines 211-214):
`currentProfit >= opportunity.profit * (1 - MAX_SLIPPAGE)`. -/
def isStillProfitable (session : ArbitrageSession) (opportunity : ArbitrageOpportunity) :
    Bool :=
  decide (opportunity.profit * (1 - MAX_SLIPPAGE) ≤ calculateCurrentProfit session)

/-- Which `throw` ended the leg loop. -/
inductive LegStop where
  | profitAbort
  | legError (message : String)
deriving DecidableEq, Repr

/-- The leg loop of `executeTriangularArbitrage` (lines 59-67): per path
entry, execute the trade, push its result, then abort unless the run is
still profitable. Returns the session as mutated so far, the order requests
submitted, and which throw (if any) ended the loop. -/
def runLegs (env : ExchangeEnv) (opportunity : ArbitrageOpportunity) :
    ArbitrageSession → ℕ → List String →
      ArbitrageSession × List OrderReq × Option LegStop
  | session, _, [] => (session, [], none)
  | session, index, symbol :: rest =>
    match executeTrade env symbol (exchangeIdAt opportunity.exchanges index) session with
    | (Except.error e, log) => (session, log, some (LegStop.legError e))
    | (Except.ok result, log) =>
      let session' := { session with trades := session.trades ++ [result] }
      if isStillProfitable session' opportunity then
        let r := runLegs env opportunity session' (index + 1) rest
        (r.1, log ++ r.2.1, r.2.2)
      else (session', log, some LegStop.profitAbort)

/-- `createSession` (lines 26-38); `Date.now()` and the `Math.random` id
suffix are the explicit `now`/`rand` inputs. -/
def createSession (opportunity : ArbitrageOpportunity) (now : ℕ) (rand : String) :
    ArbitrageSession :=
  { id := "session-" ++ toString now ++ "-" ++ rand
    startTime := now
    trades := []
    status := SessionStatus.pending
    profitTarget := opportunity.profit
    currentProfit := 0
    errors := [] }

/-- The session right after `session.status = 'executing'` (line 45). -/
def executingSession (opportunity : ArbitrageOpportunity) (now : ℕ) (rand : String) :
    ArbitrageSession :=
  { createSession opportunity now rand with status := SessionStatus.executing }

/-- The compensating order `rollbackTrades` submits for one recorded leg:
market order, same venue and symbol, opposite side, the leg's filled
amount. -/
def compensationOrder (trade : TradeResult) : OrderReq :=
  { exchange := trade.exchange, symbol := trade.symbol, type := OrderType.market,
    side := flipSide trade.side, amount := trade.filled, price := none }

/-- `rollbackTrades` (part_009 lines 191-209):
`for (const trade of session.trades.reverse())` — `Array.prototype.reverse`
mutates its receiver, so the session keeps the reversed list. Every
iteration calls `createOrder`; a rejection is caught and written to the
console logger only, so all compensations are attempted whatever the
gateway answers (the answers are discarded) and no other session field is
touched. -/
def rollbackTrades (_env : ExchangeEnv) (session : ArbitrageSession) :
    ArbitrageSession × List OrderReq :=
  let reversed := session.trades.reverse
  ({ session with trades := reversed }, reversed.map compensationOrder)

/-- The `catch` block of `executeTriangularArbitrage` (lines 73-86): mark the
session failed, push the error message, and roll back when at least one
trade was recorded. -/
def failSession (env : ExchangeEnv) (session : ArbitrageSession) (message : String) :
    ArbitrageSession × List OrderReq :=
  let session' :=
    { session with
      status := SessionStatus.failed
      errors := session.errors ++ [message] }
  if session'.trades.isEmpty then (session', [])
  else rollbackTrades env session'

/-- `executeTriangularArbitrage` (part_009 lines 40-88). The final
`verifyArbitrageResult` call names a method the class does not define, so a
run in which every leg succeeds ends in the same catch via a TypeError —
`completed` is unreachable. Returns the terminal session and the
chronological list of `createOrder` requests. -/
def executeTriangularArbitrage (env : ExchangeEnv) (opportunity : ArbitrageOpportunity)
    (now : ℕ) (rand : String) : ArbitrageSession × List OrderReq :=
  let session := executingSession opportunity now rand
  match validateBalances env opportunity with
  | Except.error e => failSession env session e
  | Except.ok _ =>
    match validateLiquidity env opportunity with
    | Except.error e => failSession env session e
    | Except.ok _ =>
      match env.riskMetrics opportunity with
      | Except.error e => failSession env session e
      | Except.ok riskMetrics =>
        if riskMetrics.executionRisk = RiskLevel.high then
          failSession env session "Risco de execução muito alto"
        else
          match runLegs env opportunity session 0 opportunity.path with
          | (session', log, some stop) =>
            let message := match stop with
              | LegStop.profitAbort => "Oportunidade não é mais lucrativa"
              | LegStop.legError e => e
            let fr := failSession env session' message
            (fr.1, log ++ fr.2)
          | (session', log, none) =>
            let fr := failSession env session'
              "TypeError: this.verifyArbitrageResult is not a function"
            (fr.1, log ++ fr.2)

/-! ## Spec-side definitions and concrete instances used by the theorems -/

/-- Venue selection as claim C4 words it — the venue of the quote with the
lowest `ask` field (first occurrence wins a tie). Written from the claim's
words for comparison with the code, which reads only the `price` field. -/
def lowestAskVenue (prices : List PriceData) : Option String :=
  match prices with
  | [] => none
  | p :: rest =>
    some ((rest.foldl (fun m q => if q.ask.getD 0 < m.ask.getD 0 then q else m) p).exchange)

/-- Venue of the quote with the highest `bid` field, from claim C4's words. -/
def highestBidVenue (prices : List PriceData) : Option String :=
  match prices with
  | [] => none
  | p :: rest =>
    some ((rest.foldl (fun m q => if m.bid.getD 0 < q.bid.getD 0 then q else m) p).exchange)

/-- Declarative description of one emitted simple opportunity: its symbol
group is one of the per-symbol groups of the included prices, has at least
two quotes, its price-field minimum and maximum (as the source's `reduce`
picks them) sit on distinct venues and give a fee-adjusted percentage at or
above the threshold, and the opportunity is exactly the record built from
them. -/
def SimpleEmit (prices : List PriceData) (params : ArbitrageParams) (now : ℕ)
    (o : ArbitrageOpportunity) : Prop :=
  ∃ symbol group p0 rest, group = p0 :: rest ∧
    (symbol, group) ∈
      groupByKey (fun p => p.symbol)
        (prices.filter fun p => p.exchange ∈ params.includeExchanges) ∧
    2 ≤ group.length ∧
    reduceMinPrice group p0 ∈ group ∧
    reduceMaxPrice group p0 ∈ group ∧
    (∀ q ∈ group, (reduceMinPrice group p0).price ≤ q.price) ∧
    (∀ q ∈ group, q.price ≤ (reduceMaxPrice group p0).price) ∧
    (reduceMinPrice group p0).exchange ≠ (reduceMaxPrice group p0).exchange ∧
    params.minProfitPercentage ≤
      ((reduceMaxPrice group p0).price / (reduceMinPrice group p0).price * 0.998 - 1) * 100 ∧
    o = mkSimpleOpp now symbol (reduceMinPrice group p0) (reduceMaxPrice group p0)

/-- Two venues quoting one symbol, with explicit bid/ask fields on which the
claimed ask/bid selection disagrees with the code's price-field selection:
the lowest ask (101) and the highest bid (102) both sit on venue B. -/
def askBidPrices : List PriceData :=
  [ { symbol := "BTC/USDT", price := 100, exchange := "A", timestamp := 0,
      bid := some 99, ask := some 104 },
    { symbol := "BTC/USDT", price := 102, exchange := "B", timestamp := 0,
      bid := some 102, ask := some 101 } ]

/-- Detector parameters shared by the concrete detector runs. -/
def askBidParams : ArbitrageParams :=
  { minProfitPercentage := 0.5, maxPathLength := 5, includeExchanges := ["A", "B"] }

/-- The claim's own simple-arbitrage example: venue A asking 100, venue B
bidding 102 for one symbol. -/
def claimExamplePrices : List PriceData :=
  [ { symbol := "BTC/USDT", price := 100, exchange := "A", timestamp := 0,
      ask := some 100 },
    { symbol := "BTC/USDT", price := 102, exchange := "B", timestamp := 0,
      bid := some 102 } ]

/-- Two symbols, each quoted 100 on E1 and 102 on E2: both emitted simple
opportunities carry the same profit percentage, so the claimed capital/id
tie-break is observable. -/
def tieOrderPrices : List PriceData :=
  [ { symbol := "Z/U", price := 100, exchange := "E1", timestamp := 0 },
    { symbol := "Z/U", price := 102, exchange := "E2", timestamp := 0 },
    { symbol := "A/U", price := 100, exchange := "E1", timestamp := 0 },
    { symbol := "A/U", price := 102, exchange := "E2", timestamp := 0 } ]

/-- Parameters for the tie-order run. -/
def tieOrderParams : ArbitrageParams :=
  { minProfitPercentage := 0.5, maxPathLength := 5, includeExchanges := ["E1", "E2"] }

/-- An order book with 10000 units of depth on each side. -/
def ampleBook : OrderBook :=
  { bids := [(100, 5000), (99, 5000)], asks := [(101, 5000), (102, 5000)] }

/-- A gateway whose liquidity answers are exactly what the concrete
`checkLiquidity` of `exchange.ts` computes over `ampleBook`, and whose
balance calls succeed; the remaining oracles are never reached by the runs
that use it. -/
def liquidityEnv : ExchangeEnv :=
  { fetchBalance := fun _ => Except.ok 100
    checkLiquidity := fun ex sym amt => Except.ok (checkLiquidity ex sym amt ampleBook)
    riskMetrics := fun _ => Except.error "unreached"
    fetchOrderBook := fun _ _ => Except.error "unreached"
    createOrder := fun _ _ _ _ _ _ => Except.error "unreached"
    waitForOrder := fun _ _ _ => Except.error "unreached" }

/-- An opportunity requiring 1000 units of capital on a single-entry path. -/
def liquidityOpp : ArbitrageOpportunity :=
  { id := "opp-liq", type := ArbitrageType.triangular, profit := 1,
    profitPercentage := 1, path := ["BTC/USDT"], details := "", timestamp := 0,
    exchanges := ["binance"], minimumRequired := some 1000 }

/-- The fill every `createOrder` of `abortEnv` reports: a buy costing 1. -/
def abortTrade : TradeResult :=
  { id := "t1", status := "closed", filled := 1, remaining := 0, price := 1,
    cost := 1, timestamp := 0, side := Side.buy, exchange := "e1", symbol := "X/Y" }

/-- A gateway on which every validation passes and the first leg fills with
`abortTrade`, whose cost makes the running profit drop far below target. -/
def abortEnv : ExchangeEnv :=
  { fetchBalance := fun _ => Except.ok 100
    checkLiquidity := fun ex sym _ =>
      Except.ok { exchange := ex, symbol := sym, bidVolume := 10, askVolume := 10,
                  spread := 0, isLiquid := some true }
    riskMetrics := fun _ =>
      Except.ok { volatility := 0, slippageEstimate := 0, liquidityScore := 0,
                  executionRisk := RiskLevel.low, maxLoss := 0 }
    fetchOrderBook := fun _ _ => Except.ok { bids := [(1, 1)], asks := [(1, 1)] }
    createOrder := fun _ _ _ _ _ _ => Except.ok abortTrade
    waitForOrder := fun _ _ _ => Except.ok () }

/-- A two-leg opportunity whose profit target (100) the first fill misses. -/
def abortOpp : ArbitrageOpportunity :=
  { id := "opp-abort", type := ArbitrageType.triangular, profit := 100,
    profitPercentage := 1, path := ["X/Y", "Y/Z"], details := "", timestamp := 0,
    exchanges := ["e1", "e2"], minimumRequired := some 1 }

/-- The session state after `abortEnv`'s first leg. -/
def abortSession : ArbitrageSession :=
  { executingSession abortOpp 0 "r" with trades := [abortTrade] }

/-- The one limit order the first leg of the `abortEnv` run places. -/
def abortReq : OrderReq :=
  { exchange := "e1", symbol := "X/Y", type := OrderType.limit, side := Side.buy,
    amount := 0, price := some 1 }

/-- A recorded buy leg of a failed session. -/
def failedTrade1 : TradeResult :=
  { id := "a", status := "closed", filled := 2, remaining := 0, price := 3,
    cost := 6, timestamp := 1, side := Side.buy, exchange := "binance",
    symbol := "BTC/USDT" }

/-- A recorded sell leg of a failed session. -/
def failedTrade2 : TradeResult :=
  { id := "b", status := "closed", filled := 5, remaining := 0, price := 7,
    cost := 35, timestamp := 2, side := Side.sell, exchange := "kucoin",
    symbol := "ETH/USDT" }

/-- A failed session with two recorded legs. -/
def failedSession : ArbitrageSession :=
  { id := "s", startTime := 0, trades := [failedTrade1, failedTrade2],
    status := SessionStatus.failed, profitTarget := 1, currentProfit := 0,
    errors := ["boom"] }

/-- A gateway that rejects every order: rollback must still attempt every
compensation. -/
def failingEnv : ExchangeEnv :=
  { fetchBalance := fun _ => Except.error "rejected"
    checkLiquidity := fun _ _ _ => Except.error "rejected"
    riskMetrics := fun _ => Except.error "rejected"
    fetchOrderBook := fun _ _ => Except.error "rejected"
    createOrder := fun _ _ _ _ _ _ => Except.error "rejected"
    waitForOrder := fun _ _ _ => Except.error "rejected" }

/-! ## Helper lemmas -/

/-- Once the start asset sits on the path and the current asset can only be
the start on a path of at most two nodes, the search emits nothing: every
recursive hop goes to an asset not yet on the path, and the start always is. -/
theorem findArbitragePaths_eq_nil (fuel : ℕ) :
    ∀ (currentAsset startAsset : String) (assets symbols : List String)
      (priceMap : List (String × ℚ)) (currentValue : ℚ) (path : List String)
      (exchange : String) (maxDepth : ℕ) (minProfitPercentage : ℚ) (now : ℕ),
      startAsset ∈ path → (currentAsset = startAsset → path.length ≤ 2) →
      findArbitragePaths fuel currentAsset startAsset assets symbols priceMap
        currentValue path exchange maxDepth minProfitPercentage now = [] := by
  induction fuel with
  | zero =>
    intro ca sa assets symbols pm cv path ex md mp now hmem himp
    unfold findArbitragePaths
    split
    · rfl
    · split
      · next h2 =>
          obtain ⟨h2a, h2b⟩ := h2
          exact absurd (himp h2a) (by omega)
      · rfl
  | succ fuel ih =>
    intro ca sa assets symbols pm cv path ex md mp now hmem himp
    unfold findArbitragePaths
    split
    · rfl
    · split
      · next h2 =>
          obtain ⟨h2a, h2b⟩ := h2
          exact absurd (himp h2a) (by omega)
      · refine List.flatMap_eq_nil_iff.mpr ?_
        intro a ha
        split
        · rfl
        · next hne =>
            split
            · rfl
            · next nv hnv =>
                split
                · rfl
                · next hnotin =>
                    refine ih a sa assets symbols pm (nv * 0.999) (path ++ [a]) ex md mp now
                      (List.mem_append_left _ hmem) ?_
                    intro heq
                    exact absurd (heq ▸ hmem) hnotin

/-- The triangular sweep emits nothing on any input. -/
theorem triangularOpportunities_eq_nil (prices : List PriceData)
    (params : ArbitrageParams) (now : ℕ) :
    triangularOpportunities prices params now = [] := by
  unfold triangularOpportunities
  refine List.flatMap_eq_nil_iff.mpr ?_
  intro g hg
  refine List.flatMap_eq_nil_iff.mpr ?_
  intro a ha
  refine findArbitragePaths_eq_nil _ a a _ _ _ _ [a] _ _ _ _ (List.mem_singleton_self a) ?_
  intro _
  simp

/-- Anything a symbol group emits is the simple opportunity it builds. -/
theorem simpleOppOfGroup_eq (params : ArbitrageParams) (now : ℕ) (symbol : String)
    (group : List PriceData) (o : ArbitrageOpportunity)
    (h : o ∈ simpleOppOfGroup params now symbol group) :
    ∃ p0 rest, group = p0 :: rest ∧ ¬ group.length < 2 ∧
      (reduceMinPrice group p0).exchange ≠ (reduceMaxPrice group p0).exchange ∧
      params.minProfitPercentage ≤
        ((reduceMaxPrice group p0).price / (reduceMinPrice group p0).price * 0.998 - 1) * 100 ∧
      o = mkSimpleOpp now symbol (reduceMinPrice group p0) (reduceMaxPrice group p0) := by
  cases group with
  | nil => simp [simpleOppOfGroup] at h
  | cons p0 rest =>
    refine ⟨p0, rest, rfl, ?_⟩
    simp only [simpleOppOfGroup] at h
    split at h
    · exact absurd h (List.not_mem_nil o)
    · next hlen =>
      split at h
      · exact absurd h (List.not_mem_nil o)
      · next hex =>
        split at h
        · next hth =>
            refine ⟨hlen, hex, hth, ?_⟩
            simpa using h
        · exact absurd h (List.not_mem_nil o)

/-- Every member of the detector's final output has type `simple`. -/
theorem detectorMemTypeSimple (prices : List PriceData) (params : ArbitrageParams)
    (now : ℕ) (o : ArbitrageOpportunity)
    (h : o ∈ findTriangularArbitrageOpportunities prices params now) :
    o.type = ArbitrageType.simple := by
  have hmem : o ∈ detectorUnsorted prices params now :=
    (List.perm_insertionSort oppBefore (detectorUnsorted prices params now)).subset h
  rw [detectorUnsorted, triangularOpportunities_eq_nil, List.nil_append] at hmem
  unfold findSimpleArbitrageOpportunities at hmem
  obtain ⟨g, hg, hog⟩ := List.exists_of_mem_flatMap hmem
  obtain ⟨p0, rest, hgrp, hlen, hexch, hth, rfl⟩ :=
    simpleOppOfGroup_eq _ _ _ _ _ hog
  rfl

/-- One step of the ask-side `reduce`. -/
theorem reduceMinPrice_cons (p : PriceData) (t : List PriceData) (init : PriceData) :
    reduceMinPrice (p :: t) init =
      reduceMinPrice t (if p.price < init.price then p else init) := rfl

/-- One step of the bid-side `reduce`. -/
theorem reduceMaxPrice_cons (p : PriceData) (t : List PriceData) (init : PriceData) :
    reduceMaxPrice (p :: t) init =
      reduceMaxPrice t (if init.price < p.price then p else init) := rfl

/-- The `reduce` result's price bounds the seed and every element from below. -/
theorem reduceMinPrice_le (l : List PriceData) :
    ∀ init, (reduceMinPrice l init).price ≤ init.price ∧
      ∀ q ∈ l, (reduceMinPrice l init).price ≤ q.price := by
  induction l with
  | nil =>
    intro init
    exact ⟨le_refl _, by simp⟩
  | cons p t ih =>
    intro init
    rw [reduceMinPrice_cons]
    obtain ⟨h1, h2⟩ := ih (if p.price < init.price then p else init)
    constructor
    · refine le_trans h1 ?_
      split
      · next hlt => exact le_of_lt hlt
      · exact le_refl _
    · intro q hq
      rcases List.mem_cons.mp hq with rfl | hq'
      · refine le_trans h1 ?_
        split
        · exact le_refl _
        · next hnlt => exact le_of_not_lt hnlt
      · exact h2 q hq'

/-- The `reduce` result's price bounds the seed and every element from above. -/
theorem reduceMaxPrice_ge (l : List PriceData) :
    ∀ init, init.price ≤ (reduceMaxPrice l init).price ∧
      ∀ q ∈ l, q.price ≤ (reduceMaxPrice l init).price := by
  induction l with
  | nil =>
    intro init
    exact ⟨le_refl _, by simp⟩
  | cons p t ih =>
    intro init
    rw [reduceMaxPrice_cons]
    obtain ⟨h1, h2⟩ := ih (if init.price < p.price then p else init)
    constructor
    · refine le_trans ?_ h1
      split
      · next hlt => exact le_of_lt hlt
      · exact le_refl _
    · intro q hq
      rcases List.mem_cons.mp hq with rfl | hq'
      · refine le_trans ?_ h1
        split
        · exact le_refl _
        · next hnlt => exact le_of_not_lt hnlt
      · exact h2 q hq'

/-- The ask-side `reduce` yields the seed or a list element. -/
theorem reduceMinPrice_mem (l : List PriceData) :
    ∀ init, reduceMinPrice l init = init ∨ reduceMinPrice l init ∈ l := by
  induction l with
  | nil =>
    intro init
    exact Or.inl rfl
  | cons p t ih =>
    intro init
    rw [reduceMinPrice_cons]
    rcases ih (if p.price < init.price then p else init) with h | h
    · rw [h]
      split
      · exact Or.inr (List.mem_cons_self _ _)
      · exact Or.inl rfl
    · exact Or.inr (List.mem_cons_of_mem _ h)

/-- The bid-side `reduce` yields the seed or a list element. -/
theorem reduceMaxPrice_mem (l : List PriceData) :
    ∀ init, reduceMaxPrice l init = init ∨ reduceMaxPrice l init ∈ l := by
  induction l with
  | nil =>
    intro init
    exact Or.inl rfl
  | cons p t ih =>
    intro init
    rw [reduceMaxPrice_cons]
    rcases ih (if init.price < p.price then p else init) with h | h
    · rw [h]
      split
      · exact Or.inr (List.mem_cons_self _ _)
      · exact Or.inl rfl
    · exact Or.inr (List.mem_cons_of_mem _ h)


/-! ## Executor lemmas -/

/-- With a gateway whose balance calls all succeed, `validateBalances`
passes: `hasEnoughBalance` is the source's always-true placeholder. -/
theorem validateBalancesGo_ok (env : ExchangeEnv) (opp : ArbitrageOpportunity)
    (h : ∀ e, ∃ q, env.fetchBalance e = Except.ok q) :
    ∀ l, validateBalancesGo env opp l = Except.ok () := by
  intro l
  induction l with
  | nil => rfl
  | cons e rest ih =>
    obtain ⟨q, hq⟩ := h e
    simp only [validateBalancesGo, hq, hasEnoughBalance, if_true]
    exact ih

/-- When the gateway's liquidity answers are what the concrete
`checkLiquidity` of `exchange.ts` computes, `validateLiquidity` throws on
the first path entry: the returned object never carries `isLiquid`. -/
theorem validateLiquidity_rejects_first (env : ExchangeEnv)
    (opp : ArbitrageOpportunity)
    (hliq : ∀ ex sym amt, ∃ ob,
      env.checkLiquidity ex sym amt = Except.ok (checkLiquidity ex sym amt ob))
    (s : String) (rest : List String) (hpath : opp.path = s :: rest) :
    validateLiquidity env opp =
      Except.error ("Liquidez insuficiente para " ++ s ++ " em "
        ++ exchangeIdAt opp.exchanges 0) := by
  unfold validateLiquidity
  rw [hpath]
  obtain ⟨ob, hob⟩ := hliq (exchangeIdAt opp.exchanges 0) s
    (opp.minimumRequired.getD 0 * MIN_LIQUIDITY_RATIO)
  simp only [validateLiquidityGo, hob, checkLiquidity]
  rfl

/-- A successful `executeTrade` submitted exactly one order request. -/
theorem executeTrade_ok_log (env : ExchangeEnv) (symbol exchangeId : String)
    (session : ArbitrageSession) (r : TradeResult) (log : List OrderReq)
    (h : executeTrade env symbol exchangeId session = (Except.ok r, log)) :
    log.length = 1 := by
  unfold executeTrade at h
  dsimp only at h
  cases hp : calculateOptimalPrice env symbol exchangeId (determineTradeSide symbol session) with
  | error e =>
    rw [hp] at h
    simp at h
  | ok price =>
    rw [hp] at h
    dsimp only at h
    cases hc : env.createOrder exchangeId symbol OrderType.limit
        (determineTradeSide symbol session) (calculateTradeAmount symbol session)
        (some price) with
    | error e =>
      rw [hc] at h
      simp at h
    | ok result =>
      rw [hc] at h
      dsimp only at h
      cases hw : env.waitForOrder result.id symbol exchangeId with
      | error e =>
        rw [hw] at h
        simp at h
      | ok u =>
        rw [hw] at h
        simp only [Prod.mk.injEq] at h
        rw [← h.2]
        rfl

/-- A loop run ending in the profitability abort appended the executed
trades to the session, submitted one order per executed leg, executed at
least one and at most `legs.length` legs, and left the final profitability
check false. -/
theorem runLegs_profitAbort (env : ExchangeEnv) (opp : ArbitrageOpportunity) :
    ∀ (legs : List String) (sess : ArbitrageSession) (idx : ℕ)
      (sessK : ArbitrageSession) (log : List OrderReq),
      runLegs env opp sess idx legs = (sessK, log, some LegStop.profitAbort) →
      ∃ ts, sessK = { sess with trades := sess.trades ++ ts } ∧
        ts.length = log.length ∧ 1 ≤ log.length ∧ ts.length ≤ legs.length ∧
        isStillProfitable sessK opp = false := by
  intro legs
  induction legs with
  | nil =>
    intro sess idx sessK log h
    simp [runLegs] at h
  | cons symbol rest ih =>
    intro sess idx sessK log h
    unfold runLegs at h
    rcases hexe : executeTrade env symbol (exchangeIdAt opp.exchanges idx) sess with ⟨res, lg⟩
    rw [hexe] at h
    cases res with
    | error e => simp at h
    | ok result =>
      have hlg : lg.length = 1 := executeTrade_ok_log env _ _ _ _ _ hexe
      simp only [] at h
      by_cases hp :
          isStillProfitable { sess with trades := sess.trades ++ [result] } opp = true
      · rw [if_pos hp] at h
        rcases hr : runLegs env opp { sess with trades := sess.trades ++ [result] }
            (idx + 1) rest with ⟨s2, l2, st2⟩
        rw [hr] at h
        simp only [Prod.mk.injEq] at h
        obtain ⟨h1, h2, h3⟩ := h
        subst h1
        subst h2
        rw [h3] at hr
        obtain ⟨ts2, hs2, hlen2, hpos2, hle2, hprof2⟩ :=
          ih { sess with trades := sess.trades ++ [result] } (idx + 1) s2 l2 hr
        refine ⟨[result] ++ ts2, ?_, ?_, ?_, ?_, hprof2⟩
        · rw [hs2]
          simp
        · simp only [List.length_append, List.length_cons, List.length_nil]
          omega
        · simp only [List.length_append]
          omega
        · simp only [List.length_append, List.length_cons, List.length_nil]
          omega
      · rw [if_neg hp] at h
        simp only [Prod.mk.injEq] at h
        obtain ⟨h1, h2, h3⟩ := h
        subst h1
        subst h2
        refine ⟨[result], rfl, by simp [hlg], by omega, by simp, ?_⟩
        simp only [Bool.not_eq_true] at hp
        exact hp

/-! ## Claim theorems -/

/-- C1 (code-bug evidence): in the hop BTC → USD over the symbol `BTC/USD`
quoted at price 30000, the code turns a held value of 1 (BTC, the BASE) into
`1 / 30000` — it divides by the quoted price — whereas the claim (the spec's
canonical conversion) requires multiplying, 1 BTC being worth 30000 USD.
The code's own comment ("sell current for next") describes the
multiplication it does not perform; the inverse orientation is swapped the
same way. -/
theorem hop_direct_divides_base_holding :
    hopConvert ["BTC/USD"] [("BTC/USD", 30000)] "BTC" "USD" 1 = some (1 / 30000) ∧
      ¬ ((1 : ℚ) / 30000 = 1 * 30000) := by
  constructor
  · have h1 : ("BTC" ++ "/" ++ "USD" : String) = "BTC/USD" := rfl
    simp only [hopConvert, lookupPrice, h1]
    norm_num
  · norm_num

/-- C2: for every price list and parameter set, the detector's output
contains no opportunity of type `triangular` — every element has type
`simple` — because the recursion only ever extends the path with assets not
already on it and the start asset is the path's first element. -/
theorem detector_emits_no_triangular (prices : List PriceData)
    (params : ArbitrageParams) (now : ℕ) :
    (findTriangularArbitrageOpportunities prices params now).all
      (fun o => o.type == ArbitrageType.simple) = true := by
  rw [List.all_eq_true]
  intro o ho
  rw [beq_iff_eq]
  exact detectorMemTypeSimple prices params now o ho

/-- C3: every opportunity of type `triangular` in the detector's output has
a closed path of 3 to `maxPathLength + 1` nodes without repeated
intermediate assets — vacuously, as the detector never emits a triangular
opportunity. -/
theorem triangular_path_validity (prices : List PriceData)
    (params : ArbitrageParams) (now : ℕ) :
    (findTriangularArbitrageOpportunities prices params now).all
      (fun o => !(o.type == ArbitrageType.triangular)
        || triPathOk params.maxPathLength o.path) = true := by
  rw [List.all_eq_true]
  intro o ho
  have hty := detectorMemTypeSimple prices params now o ho
  rw [hty]
  rfl

/-- C8 (amended): given the snapshot, the parameters and the timestamp the
detector is a pure function, its output is a permutation of the
emission-ordered unsorted list, sorted by descending profit percentage; no
capital or id tie-break is applied (ties keep emission order, by stability
of the sort). -/
theorem detection_sorted_by_profit (prices : List PriceData)
    (params : ArbitrageParams) (now : ℕ) :
    List.Sorted oppBefore (findTriangularArbitrageOpportunities prices params now) ∧
    (findTriangularArbitrageOpportunities prices params now).Perm
      (detectorUnsorted prices params now) :=
  ⟨List.sorted_insertionSort oppBefore _, List.perm_insertionSort oppBefore _⟩

/-- C4 (counterexample): on `askBidPrices` the lowest ask (101) and the
highest bid (102) both belong to venue B, so the claimed selection would skip
the symbol as a same-venue pair — yet the code, which reads only the `price`
field, emits exactly one opportunity with venues [A, B]. -/
theorem simple_detection_ask_bid_counterexample :
    ((findSimpleArbitrageOpportunities askBidPrices askBidParams 0).map
        fun o => o.exchanges) = [["A", "B"]] ∧
    lowestAskVenue askBidPrices = some "B" ∧
    highestBidVenue askBidPrices = some "B" := by
  have hAB : ¬ ("A" : String) = "B" := by decide
  refine ⟨?_, ?_, ?_⟩
  · norm_num [findSimpleArbitrageOpportunities, groupByKey, pushGroup, simpleOppOfGroup,
      reduceMinPrice, reduceMaxPrice, mkSimpleOpp, askBidPrices, askBidParams, hAB]
  · norm_num [lowestAskVenue, askBidPrices]
  · norm_num [highestBidVenue, askBidPrices]

/-- C4 (amended): for every symbol group of at least two included quotes,
the code selects the quotes with the lowest and highest `price` field (the
optional `bid`/`ask` fields are never read), skips same-venue pairs, and
emits exactly when `((maxPrice / minPrice) * (1 - 0.002) - 1) * 100` reaches
the configured minimum; `SimpleEmit` characterises the output. On the
claim's own example (venue A quoting 100, venue B quoting 102, minimum 0.5)
exactly one opportunity appears, with venues [A, B] and profit percentage
`(1.02 * 0.998 - 1) * 100`. -/
theorem simple_detection_price_field :
    (∀ (prices : List PriceData) (params : ArbitrageParams) (now : ℕ)
        (o : ArbitrageOpportunity),
      o ∈ findSimpleArbitrageOpportunities prices params now ↔
        SimpleEmit prices params now o) ∧
    ((findSimpleArbitrageOpportunities claimExamplePrices askBidParams 0).map
        fun o => (o.exchanges, o.profitPercentage))
      = [(["A", "B"], (102 / 100 * 0.998 - 1) * 100)] := by
  constructor
  · intro prices params now o
    constructor
    · intro h
      unfold findSimpleArbitrageOpportunities at h
      obtain ⟨g, hg, hog⟩ := List.exists_of_mem_flatMap h
      obtain ⟨p0, rest, hgrp, hlen, hexch, hth, rfl⟩ := simpleOppOfGroup_eq _ _ _ _ _ hog
      refine ⟨g.1, g.2, p0, rest, hgrp, hg, by omega, ?_, ?_,
        (reduceMinPrice_le g.2 p0).2, (reduceMaxPrice_ge g.2 p0).2, hexch, hth, rfl⟩
      · rcases reduceMinPrice_mem g.2 p0 with he | he
        · rw [he, hgrp]
          exact List.mem_cons_self _ _
        · exact he
      · rcases reduceMaxPrice_mem g.2 p0 with he | he
        · rw [he, hgrp]
          exact List.mem_cons_self _ _
        · exact he
    · intro hE
      obtain ⟨symbol, group, p0, rest, hgrp, hmem, hlen, _, _, _, _, hexch, hth, rfl⟩ := hE
      unfold findSimpleArbitrageOpportunities
      refine List.mem_flatMap.mpr ⟨(symbol, group), hmem, ?_⟩
      subst hgrp
      simp only [simpleOppOfGroup]
      rw [if_neg (by omega), if_neg hexch, if_pos hth]
      exact List.mem_singleton_self _
  · have hAB : ¬ ("A" : String) = "B" := by decide
    norm_num [findSimpleArbitrageOpportunities, groupByKey, pushGroup, simpleOppOfGroup,
      reduceMinPrice, reduceMaxPrice, mkSimpleOpp, claimExamplePrices, askBidParams, hAB]

/-- C8 (counterexample): two symbol groups tie at profit percentage 449/250;
neither opportunity carries a minimum-required-capital value, and the
output keeps emission order, putting the lexicographically larger id
`simple-Z/U-…` before `simple-A/U-…` — the claimed capital/id tie-break is
not applied. -/
theorem detection_tie_order_counterexample :
    ((findTriangularArbitrageOpportunities tieOrderPrices tieOrderParams 7).map
        fun o => o.id) = ["simple-Z/U-E1-E2-7", "simple-A/U-E1-E2-7"] ∧
    ((findTriangularArbitrageOpportunities tieOrderPrices tieOrderParams 7).map
        fun o => o.profitPercentage) = [449 / 250, 449 / 250] ∧
    ((findTriangularArbitrageOpportunities tieOrderPrices tieOrderParams 7).map
        fun o => o.minimumRequired) = [none, none] ∧
    ("simple-A/U-E1-E2-7" : String).data < ("simple-Z/U-E1-E2-7" : String).data := by
  have hout : findTriangularArbitrageOpportunities tieOrderPrices tieOrderParams 7 =
      List.insertionSort oppBefore
        (findSimpleArbitrageOpportunities tieOrderPrices tieOrderParams 7) := by
    unfold findTriangularArbitrageOpportunities detectorUnsorted
    rw [triangularOpportunities_eq_nil, List.nil_append]
  have hE : ¬ ("E1" : String) = "E2" := by decide
  have hZA : ¬ ("Z/U" : String) = "A/U" := by decide
  refine ⟨?_, ?_, ?_, by decide⟩ <;>
  · rw [hout]
    norm_num [findSimpleArbitrageOpportunities, groupByKey, pushGroup, simpleOppOfGroup,
      reduceMinPrice, reduceMaxPrice, mkSimpleOpp, oppBefore, tieOrderPrices,
      tieOrderParams, hE, hZA]
    first
    | decide
    | skip


/-- C5: for a failed session with N recorded trades, `rollbackTrades`
submits exactly N compensating market orders — the recorded trades in
reverse order, each on the original venue and symbol with the opposite side
and the original filled amount — whatever the gateway answers (rejections
are only console-logged), and the session's status stays `failed`. -/
theorem rollback_compensation_exact (env : ExchangeEnv) (session : ArbitrageSession)
    (hfail : session.status = SessionStatus.failed) :
    (rollbackTrades env session).2 = session.trades.reverse.map compensationOrder ∧
    (rollbackTrades env session).2.length = session.trades.length ∧
    (rollbackTrades env session).1.status = SessionStatus.failed := by
  refine ⟨rfl, ?_, ?_⟩
  · simp [rollbackTrades]
  · simpa [rollbackTrades] using hfail

/-- C5 witness: a failed session with two legs against a gateway that
rejects every compensating order still gets both compensations attempted. -/
theorem rollback_compensation_exact_witness :
    (rollbackTrades failingEnv failedSession).2 =
      failedSession.trades.reverse.map compensationOrder ∧
    (rollbackTrades failingEnv failedSession).2.length = failedSession.trades.length ∧
    (rollbackTrades failingEnv failedSession).1.status = SessionStatus.failed :=
  rollback_compensation_exact failingEnv failedSession rfl

/-- C10: rollback reverses the session's trades array in place (the
`Array.prototype.reverse` mutation), keeping its length and every other
session field — including, in fact, the error log, which rollback failures
never touch (they go to the console logger). -/
theorem rollback_reverses_in_place (env : ExchangeEnv) (session : ArbitrageSession)
    (hfail : session.status = SessionStatus.failed) (hne : session.trades ≠ []) :
    (rollbackTrades env session).1.trades = session.trades.reverse ∧
    (rollbackTrades env session).1.trades.length = session.trades.length ∧
    (rollbackTrades env session).1.id = session.id ∧
    (rollbackTrades env session).1.startTime = session.startTime ∧
    (rollbackTrades env session).1.status = session.status ∧
    (rollbackTrades env session).1.profitTarget = session.profitTarget ∧
    (rollbackTrades env session).1.currentProfit = session.currentProfit ∧
    (rollbackTrades env session).1.errors = session.errors := by
  refine ⟨rfl, ?_, rfl, rfl, rfl, rfl, rfl, rfl⟩
  simp [rollbackTrades]

/-- C10 witness: the two-leg failed session comes back with its legs in
reverse chronological order and every other field untouched. -/
theorem rollback_reverses_in_place_witness :
    (rollbackTrades failingEnv failedSession).1.trades = failedSession.trades.reverse ∧
    (rollbackTrades failingEnv failedSession).1.trades.length =
      failedSession.trades.length ∧
    (rollbackTrades failingEnv failedSession).1.id = failedSession.id ∧
    (rollbackTrades failingEnv failedSession).1.startTime = failedSession.startTime ∧
    (rollbackTrades failingEnv failedSession).1.status = failedSession.status ∧
    (rollbackTrades failingEnv failedSession).1.profitTarget =
      failedSession.profitTarget ∧
    (rollbackTrades failingEnv failedSession).1.currentProfit =
      failedSession.currentProfit ∧
    (rollbackTrades failingEnv failedSession).1.errors = failedSession.errors :=
  rollback_reverses_in_place failingEnv failedSession rfl (by decide)

/-- C7 (code-bug evidence): an opportunity requiring 1000 units against an
order book with 10000 units on each side — comfortably above the claimed
`requiredAmount * LIQUIDITY_RATIO = 3000` threshold — is still rejected on
the liquidity dimension: `checkLiquidity` ignores its amount argument and
never sets `isLiquid`, so `validateLiquidity` throws on the first path
entry regardless of depth. -/
theorem validateLiquidity_rejects_ample_liquidity :
    validateLiquidity liquidityEnv liquidityOpp =
      Except.error "Liquidez insuficiente para BTC/USDT em binance" ∧
    liquidityOpp.minimumRequired.getD 0 * MIN_LIQUIDITY_RATIO ≤
      min (checkLiquidity "binance" "BTC/USDT"
            (liquidityOpp.minimumRequired.getD 0 * MIN_LIQUIDITY_RATIO) ampleBook).bidVolume
          (checkLiquidity "binance" "BTC/USDT"
            (liquidityOpp.minimumRequired.getD 0 * MIN_LIQUIDITY_RATIO) ampleBook).askVolume := by
  constructor
  · rw [validateLiquidity_rejects_first liquidityEnv liquidityOpp
      (fun ex sym amt => ⟨ampleBook, rfl⟩) "BTC/USDT" [] rfl]
    exact congrArg Except.error (by decide)
  · norm_num [checkLiquidity, ampleBook, liquidityOpp, MIN_LIQUIDITY_RATIO]

/-- C9: whenever the gateway's balance calls succeed and its liquidity
answers are those of the concrete `checkLiquidity` of `exchange.ts`,
`executeTriangularArbitrage` on any opportunity with a non-empty path ends
failed with an empty trades list, no order ever placed, and the liquidity
error of the first path entry as the only recorded error. -/
theorem executor_fails_before_any_order (env : ExchangeEnv)
    (opportunity : ArbitrageOpportunity) (now : ℕ) (rand : String)
    (hbal : ∀ e, ∃ q, env.fetchBalance e = Except.ok q)
    (hliq : ∀ ex sym amt, ∃ ob,
      env.checkLiquidity ex sym amt = Except.ok (checkLiquidity ex sym amt ob))
    (hpath : opportunity.path ≠ []) :
    (executeTriangularArbitrage env opportunity now rand).1.status = SessionStatus.failed ∧
    (executeTriangularArbitrage env opportunity now rand).1.trades = [] ∧
    (executeTriangularArbitrage env opportunity now rand).2 = [] ∧
    (executeTriangularArbitrage env opportunity now rand).1.errors =
      ["Liquidez insuficiente para " ++ opportunity.path.headD "" ++ " em "
        ++ exchangeIdAt opportunity.exchanges 0] := by
  obtain ⟨s, rest, hps⟩ : ∃ s rest, opportunity.path = s :: rest := by
    cases hp : opportunity.path with
    | nil => exact absurd hp hpath
    | cons a l => exact ⟨a, l, rfl⟩
  have hva : validateBalances env opportunity = Except.ok () :=
    validateBalancesGo_ok env opportunity hbal _
  have hvl := validateLiquidity_rejects_first env opportunity hliq s rest hps
  unfold executeTriangularArbitrage
  rw [hva]
  dsimp only
  rw [hvl]
  simp [failSession, executingSession, createSession, hps]

/-- C9 witness: the concrete `liquidityEnv`/`liquidityOpp` run fails before
placing any order, rejecting the single path entry. -/
theorem executor_fails_before_any_order_witness :
    (executeTriangularArbitrage liquidityEnv liquidityOpp 0 "r").1.status =
      SessionStatus.failed ∧
    (executeTriangularArbitrage liquidityEnv liquidityOpp 0 "r").1.trades = [] ∧
    (executeTriangularArbitrage liquidityEnv liquidityOpp 0 "r").2 = [] ∧
    (executeTriangularArbitrage liquidityEnv liquidityOpp 0 "r").1.errors =
      ["Liquidez insuficiente para " ++ liquidityOpp.path.headD "" ++ " em "
        ++ exchangeIdAt liquidityOpp.exchanges 0] :=
  executor_fails_before_any_order liquidityEnv liquidityOpp 0 "r"
    (fun _ => ⟨100, rfl⟩) (fun _ _ _ => ⟨ampleBook, rfl⟩) (by decide)

/-- C6: once the validations pass and the leg loop ends in the
profitability abort, the orchestrator has placed exactly one order per
executed leg — none for any remaining leg — the recomputed running value
sits below `profit * (1 - MAX_SLIPPAGE)`, the session ends failed with that
error alone, and rollback compensates exactly the executed legs (in reverse
order, by the trades the session then stores reversed). -/
theorem executor_abort_on_profit_loss (env : ExchangeEnv)
    (opportunity : ArbitrageOpportunity) (now : ℕ) (rand : String)
    (sessionK : ArbitrageSession) (log : List OrderReq)
    (hbal : validateBalances env opportunity = Except.ok ())
    (hliq : validateLiquidity env opportunity = Except.ok ())
    (hrisk : ∃ m, env.riskMetrics opportunity = Except.ok m ∧
      m.executionRisk ≠ RiskLevel.high)
    (hrun : runLegs env opportunity (executingSession opportunity now rand) 0
      opportunity.path = (sessionK, log, some LegStop.profitAbort)) :
    (executeTriangularArbitrage env opportunity now rand).1.status =
      SessionStatus.failed ∧
    (executeTriangularArbitrage env opportunity now rand).1.trades =
      sessionK.trades.reverse ∧
    (executeTriangularArbitrage env opportunity now rand).1.errors =
      ["Oportunidade não é mais lucrativa"] ∧
    (executeTriangularArbitrage env opportunity now rand).2 =
      log ++ sessionK.trades.reverse.map compensationOrder ∧
    isStillProfitable sessionK opportunity = false ∧
    log.length = sessionK.trades.length ∧
    sessionK.trades ≠ [] ∧
    sessionK.trades.length ≤ opportunity.path.length := by
  obtain ⟨m, hm, hhigh⟩ := hrisk
  obtain ⟨ts, hsK, hlen, hpos, hle, hprof⟩ :=
    runLegs_profitAbort env opportunity _ _ _ _ _ hrun
  have htr : sessionK.trades = ts := by
    rw [hsK]
    simp [executingSession, createSession]
  have herr : sessionK.errors = [] := by
    rw [hsK]
    simp [executingSession, createSession]
  have hne : sessionK.trades ≠ [] := by
    rw [htr]
    intro hnil
    rw [hnil] at hlen
    simp at hlen
    omega
  unfold executeTriangularArbitrage
  rw [hbal]
  dsimp only
  rw [hliq]
  dsimp only
  rw [hm]
  dsimp only
  rw [if_neg hhigh]
  rw [hrun]
  dsimp only
  simp only [failSession, herr, List.nil_append, List.isEmpty_eq_true, rollbackTrades]
  rw [if_neg ?hne2]
  case hne2 => exact hne
  refine ⟨rfl, rfl, rfl, rfl, hprof, ?_, hne, ?_⟩
  · rw [htr]
    omega
  · rw [htr]
    exact hle


/-- C6 witness: on `abortEnv` the two-leg `abortOpp` run executes exactly
one leg, finds the running value below target, places no second order,
fails, and compensates the single executed leg. -/
theorem executor_abort_on_profit_loss_witness :
    (executeTriangularArbitrage abortEnv abortOpp 0 "r").1.status =
      SessionStatus.failed ∧
    (executeTriangularArbitrage abortEnv abortOpp 0 "r").1.trades =
      abortSession.trades.reverse ∧
    (executeTriangularArbitrage abortEnv abortOpp 0 "r").1.errors =
      ["Oportunidade não é mais lucrativa"] ∧
    (executeTriangularArbitrage abortEnv abortOpp 0 "r").2 =
      [abortReq] ++ abortSession.trades.reverse.map compensationOrder ∧
    isStillProfitable abortSession abortOpp = false ∧
    [abortReq].length = abortSession.trades.length ∧
    abortSession.trades ≠ [] ∧
    abortSession.trades.length ≤ abortOpp.path.length :=
  executor_abort_on_profit_loss abortEnv abortOpp 0 "r" abortSession [abortReq]
    rfl rfl ⟨_, rfl, by decide⟩ (by
      norm_num [runLegs, executeTrade, calculateOptimalPrice, determineTradeSide,
        calculateTradeAmount, abortEnv, abortOpp, executingSession, createSession,
        isStillProfitable, calculateCurrentProfit, MAX_SLIPPAGE, abortTrade,
        abortSession, abortReq, exchangeIdAt])

end ArbiRoot
